import Mathlib

/-!
Verification development for the MpMe repository (src/mpme.py, src/stats.py).

The Python source is shallowly embedded:
* Python strings are `List Char` (the embedding models the ASCII fragment of
  Python's Unicode-aware `str.strip`/`str.title`/`str.upper`/`str.lower`;
  all string constants appearing in the program are ASCII).
* Python floats arising from `time.time()` arithmetic and division are
  modelled as exact rationals `ℚ`; `round(x, 2)` is modelled as round-half-
  to-even at two decimal places on `ℚ`.
* The external collaborators (yt_dlp downloader, eyed3 tagger, filesystem)
  are modelled as oracles: a per-attempt success predicate for the
  downloader, and per-song outcomes (fetch success, tag success, observed
  file size, observed wall-clock duration) for the batch loop.
* `raise`/uncaught exceptions are modelled with `Option`/`Except`.
-/

namespace MpMe

/-! ### Constants (src/mpme.py lines 19-36) -/

def MISC_ARTIST_NAME : List Char := String.toList "Other"

def AUDIO_FORMAT : List Char := String.toList "mp3"

def RETRY_ATTEMPTS : Nat := 3

def SONG_DELIM_CHAR : Char := Char.ofNat 126  -- the tilde character

def TAGGING_ENABLED : Bool := true

def BIG_FILE_MB : ℚ := 30

/-- The apostrophe character (code point 39), used by `format_title`'s
possessive-capitalization fix-ups. -/
def apostropheChar : Char := Char.ofNat 39

/-! ### Character helpers (ASCII model of Python's str methods) -/

/-- Characters stripped by Python's `str.strip()` (the ASCII/Latin-1 part:
space, tab, newline, vertical tab, form feed, carriage return, the
file/group/record/unit separators and next-line). -/
def isPySpace (c : Char) : Bool :=
  decide (c.toNat = 32 ∨ c.toNat = 9 ∨ c.toNat = 10 ∨ c.toNat = 11 ∨
    c.toNat = 12 ∨ c.toNat = 13 ∨ c.toNat = 28 ∨ c.toNat = 29 ∨
    c.toNat = 30 ∨ c.toNat = 31 ∨ c.toNat = 133)

/-- ASCII letter test: the "cased character" notion of `str.title()`
restricted to ASCII. -/
def isAsciiLetter (c : Char) : Bool :=
  decide ((65 ≤ c.toNat ∧ c.toNat ≤ 90) ∨ (97 ≤ c.toNat ∧ c.toNat ≤ 122))

/-- ASCII model of Python's per-character uppercasing. -/
def asciiUpper (c : Char) : Char :=
  if 97 ≤ c.toNat ∧ c.toNat ≤ 122 then Char.ofNat (c.toNat - 32) else c

/-- ASCII model of Python's per-character lowercasing. -/
def asciiLower (c : Char) : Char :=
  if 65 ≤ c.toNat ∧ c.toNat ≤ 90 then Char.ofNat (c.toNat + 32) else c

/-! ### String helpers (List Char model of Python str operations) -/

/-- `s.strip()`: remove leading and trailing whitespace. -/
def pyStrip (s : List Char) : List Char :=
  ((s.dropWhile isPySpace).reverse.dropWhile isPySpace).reverse

/-- `s.strip(",")`: remove leading and trailing comma characters. -/
def pyStripComma (s : List Char) : List Char :=
  ((s.dropWhile (fun c => c = ',')).reverse.dropWhile (fun c => c = ',')).reverse

/-- The character-by-character engine of Python's `str.title()`: a cased
character is uppercased when the previous character is not cased and
lowercased otherwise (`prevCased` tracks the previous character). -/
def pyTitleGo (prevCased : Bool) : List Char → List Char
  | [] => []
  | c :: rest =>
    if isAsciiLetter c then
      (if prevCased then asciiLower c else asciiUpper c) :: pyTitleGo true rest
    else
      c :: pyTitleGo false rest

/-- `s.title()` (ASCII model). -/
def pyTitle (s : List Char) : List Char := pyTitleGo false s

/-- `s.replace(p1p2, r1r2)` for a two-character pattern and a two-character
replacement: Python's left-to-right, non-overlapping replace-all. -/
def pyReplace2 (p1 p2 r1 r2 : Char) : List Char → List Char
  | [] => []
  | [c] => [c]
  | c1 :: c2 :: rest =>
    if c1 = p1 ∧ c2 = p2 then r1 :: r2 :: pyReplace2 p1 p2 r1 r2 rest
    else c1 :: pyReplace2 p1 p2 r1 r2 (c2 :: rest)

/-- `s.split(d)` for a single-character separator: Python semantics, so the
empty string yields `[""]` and consecutive separators yield empty fields. -/
def pySplit (d : Char) : List Char → List (List Char)
  | [] => [[]]
  | c :: rest =>
    if c = d then [] :: pySplit d rest
    else
      match pySplit d rest with
      | [] => [[c]]
      | g :: gs => (c :: g) :: gs

/-- The replacement loop of `format_title` over
`TITLE_SHORT_CHARS = {"m", "s", "t"}`: replace `'M`/`'S`/`'T` by
`'m`/`'s`/`'t` (84/116 = T/t, 83/115 = S/s, 77/109 = M/m).  The three
replacements are pairwise independent, so Python's unspecified
set-iteration order does not matter; they are applied here in the order
m, s, t. -/
def possessiveFix (l : List Char) : List Char :=
  pyReplace2 apostropheChar (Char.ofNat 84) apostropheChar (Char.ofNat 116)
    (pyReplace2 apostropheChar (Char.ofNat 83) apostropheChar (Char.ofNat 115)
      (pyReplace2 apostropheChar (Char.ofNat 77) apostropheChar (Char.ofNat 109) l))

/-- `format_title` (src/mpme.py lines 43-47): strip, title-case, then redo
the possessive suffixes. -/
def formatTitle (s : List Char) : List Char :=
  possessiveFix (pyTitle (pyStrip s))

/-! ### Song (src/mpme.py lines 95-167) -/

/-- The `Song` dataclass (lines 95-99): optional source id, name, artist. -/
structure Song where
  yid : Option (List Char)
  name : List Char
  artist : List Char
deriving DecidableEq, Repr

/-- `Song.full_name` (lines 111-115):
`f"{format_title(name)} {SONG_DELIM_CHAR} {format_title(artist)}"`. -/
def full_name (s : Song) : List Char :=
  formatTitle s.name ++ [' ', SONG_DELIM_CHAR, ' '] ++ formatTitle s.artist

/-- `Song.__str__` (lines 144-145): returns `full_name`. -/
def strSong (s : Song) : List Char := full_name s

/-- `Song.from_string` (lines 133-142): `string.strip(",").strip()`, split
on the delimiter; three fields give `(yid, name, artist)`, two fields give
`(name, artist)` with no id, anything else raises (modelled as `none`). -/
def from_string (string : List Char) : Option Song :=
  let t := pyStrip (pyStripComma string)
  match pySplit SONG_DELIM_CHAR t with
  | [yid, name, artist] => some ⟨some yid, name, artist⟩
  | [name, artist] => some ⟨none, name, artist⟩
  | _ => none

/-- `Song.size_mb` (lines 125-131): `os.stat(...).st_size / (1204 * 1204)`
when the file exists (its byte size passed as `some n`), and the sentinel
`-1` when `os.stat` raises (file absent, `none`).  Note the source really
divides by `1204 * 1204`. -/
def size_mb (bytes : Option Nat) : ℚ :=
  match bytes with
  | some n => (n : ℚ) / (1204 * 1204)
  | none => -1

/-- `Song.fetch` retry loop body (lines 153-167), with the external
downloader modelled as an oracle mapping the 0-based attempt number to
whether `ydl.download` returns without raising.  `attempt` is the number of
attempts already made, `remaining` the attempts still allowed; the result is
the returned Bool paired with the total number of download attempts made. -/
def fetchGo (oracle : Nat → Bool) (attempt : Nat) : Nat → Bool × Nat
  | 0 => (false, attempt)
  | r + 1 =>
    if oracle attempt then (true, attempt + 1)
    else fetchGo oracle (attempt + 1) r

/-- `Song.fetch` (lines 153-167): `for attempt in range(R)` around the
downloader; returns `True` as soon as one attempt succeeds, `False` after
all `R` attempts fail — it never raises. -/
def fetchRun (oracle : Nat → Bool) (R : Nat) : Bool × Nat :=
  fetchGo oracle 0 R

/-! ### Python's round(x, 2) -/

/-- Round a rational to the nearest integer, ties to even (Python's
`round` policy, modelled on exact rationals). -/
def pyRoundHalfEven (q : ℚ) : ℤ :=
  let f := ⌊q⌋
  let r := q - f
  if r < 1 / 2 then f
  else if 1 / 2 < r then f + 1
  else if f % 2 = 0 then f else f + 1

/-- `round(x, 2)`. -/
def pyRound2 (q : ℚ) : ℚ := (pyRoundHalfEven (q * 100) : ℚ) / 100

/-! ### SongList.fetch_all (src/mpme.py lines 240-274)

The loop body interacts with the outside world through `song.fetch()`,
`song.tag()`, `song.size_mb` and `time.time()`; one `SongEnv` records those
observations for one song.  `RunState` carries the two result buckets of the
`SongList` object plus the loop-local accumulators; `tagged`, `processed`
and `etaTrace` are instrumentation recording, respectively, the songs on
which `tag()` was invoked, the number of completed loop iterations, and the
value of `eta_seconds` at the moment each item's progress line is printed
(the line shows `"N/A"` exactly when that value is zero, by Python
truthiness of `if eta_seconds`). -/

structure SongEnv where
  song : Song
  fetchOk : Bool
  tagOk : Bool
  sizeMb : ℚ
  duration : ℚ
deriving DecidableEq, Repr

structure RunState where
  failed : List Song
  big : List Song
  tagged : List Song
  totalSeconds : ℚ
  avgSeconds : ℚ
  etaSeconds : ℚ
  processed : Nat
  etaTrace : List ℚ
deriving DecidableEq, Repr

/-- The display test at lines 249-253: `"N/A"` is shown iff `eta_seconds`
is (Python-)falsy, i.e. equal to zero. -/
def etaDisplayNA (etaSeconds : ℚ) : Bool := etaSeconds == 0

/-- Lines 262-270: the oversized check (`if song.size_mb > BIG_FILE_MB`)
followed by the timing/average/ETA accumulator updates.  `N` is
`total = len(self.songs)`, `start` the operator-supplied start index; the
real (1-based) index of the item being finished is `start + processed + 1`. -/
def accumulate (N start : Nat) (e : SongEnv) (st : RunState) : RunState :=
  let st2 := if BIG_FILE_MB < e.sizeMb then { st with big := st.big ++ [e.song] } else st
  let total := st2.totalSeconds + e.duration
  let n := st2.processed + 1
  let avg := pyRound2 (total / (n : ℚ))
  { st2 with
    totalSeconds := total
    processed := n
    avgSeconds := avg
    etaSeconds := avg * ((N : ℚ) - ((start : ℚ) + (n : ℚ))) }

/-- One iteration of the `for` loop (lines 247-270).  The ETA line is
printed first (its `eta_seconds` value is recorded in `etaTrace`); then
`if song.fetch() and TAGGING_ENABLED: song.tag() else: failed.append(song)`;
a raising `song.tag()` (line 259 has no handler) aborts the whole loop,
modelled as `.error` carrying the state at the moment of the raise (the
oversized check and the accumulator updates of lines 262-270 are skipped). -/
def fetchStep (tg : Bool) (N start : Nat) (e : SongEnv) (st : RunState) :
    Except RunState RunState :=
  let st1 := { st with etaTrace := st.etaTrace ++ [st.etaSeconds] }
  if e.fetchOk && tg then
    if e.tagOk then .ok (accumulate N start e { st1 with tagged := st1.tagged ++ [e.song] })
    else .error { st1 with tagged := st1.tagged ++ [e.song] }
  else .ok (accumulate N start e { st1 with failed := st1.failed ++ [e.song] })

/-- The `for i, song in enumerate(self.songs[start:])` loop. -/
def runItems (tg : Bool) (N start : Nat) (st : RunState) :
    List SongEnv → Except RunState RunState
  | [] => .ok st
  | e :: rest =>
    match fetchStep tg N start e st with
    | .ok st1 => runItems tg N start st1 rest
    | .error st1 => .error st1

/-- `SongList.fetch_all` (lines 240-274): resets `fetch_songs_failed` to
`[]` (line 241) — and only that bucket: `fetch_songs_big` keeps its previous
contents `bigPrev` — zeroes the loop-local accumulators (lines 244-246), and
runs the loop over `self.songs[start:]`. -/
def fetch_all (tg : Bool) (songs : List SongEnv) (start : Nat)
    (bigPrev : List Song) : Except RunState RunState :=
  runItems tg songs.length start
    { failed := []
      big := bigPrev
      tagged := []
      totalSeconds := 0
      avgSeconds := 0
      etaSeconds := 0
      processed := 0
      etaTrace := [] } (songs.drop start)

/-! ### Module/class attribute inventory (for stats.py)

`src/stats.py` resolves names on the `mpme` module and the `mpme.Song`
class at run time; these lists record, faithfully from src/mpme.py, which
top-level names the module defines and which attributes the `Song` class
has (dataclass fields, properties and methods). -/

def mpmeTopLevelNames : List String :=
  ["PLATFORM", "MISC_ARTIST_NAME", "TMP_DOWNLOAD_DIR", "AUDIO_FORMAT",
   "IGNORE_DISKS", "MAC_VOLUMES_DIR", "LINUX_MOUNT_DIR", "BACKUP_DIR",
   "RETRY_ATTEMPTS", "MAC_PLATFORM_PART", "LINUX_PLATFORM_PART",
   "SONG_DELIM_CHAR", "RESET_DOWNLOADS_EACH_RUN", "DEBUG",
   "TITLE_SHORT_CHARS", "TAGGING_ENABLED", "OFFER_EXPORT_FEATURES",
   "UNSUPPORTED_OS_MSG", "BIG_FILE_MB", "format_title", "YTDLogger",
   "mprint", "prepare", "YDL_BASE_OPTS", "Song", "SongList", "Exporter",
   "ExternalDiskExporter", "LocalExporter", "GoogleDriveExporter",
   "EXPORTERS", "offer_exports", "show_introduction", "main"]

def songAttrNames : List String :=
  ["yid", "name", "artist", "search_term", "full_name", "file_name",
   "full_path", "size_mb", "from_string", "tag", "fetch"]

/-! ### Reference characterization of the loop state

`avgAt done` is the moving average after the items `done` have completed,
and `mkState done` the full `RunState` after a run that has completed
exactly the items `done` without a tagging abort.  These are verification-
layer definitions (used to state and prove theorems), not part of the
source embedding. -/

def avgAt (done : List SongEnv) : ℚ :=
  pyRound2 (((done.map (·.duration)).sum) / ((done.length : ℚ)))

def mkState (tg : Bool) (N start : Nat) (bigPrev : List Song)
    (done : List SongEnv) : RunState :=
  { failed := (done.filter (fun e => !(e.fetchOk && tg))).map (·.song)
    big := bigPrev ++ (done.filter (fun e => decide (BIG_FILE_MB < e.sizeMb))).map (·.song)
    tagged := (done.filter (fun e => e.fetchOk && tg)).map (·.song)
    totalSeconds := (done.map (·.duration)).sum
    avgSeconds := avgAt done
    etaSeconds := avgAt done * ((N : ℚ) - ((start : ℚ) + (done.length : ℚ)))
    processed := done.length
    etaTrace := (List.range done.length).map
      (fun k => avgAt (done.take k) * ((N : ℚ) - ((start : ℚ) + (k : ℚ)))) }

/-- A concrete two-item input (one successful fetch of an oversized file,
one failed fetch) used by several witness theorems. -/
def demoEnvs : List SongEnv :=
  [⟨⟨none, ['a'], ['b']⟩, true, true, 31, 1⟩,
   ⟨⟨none, ['c'], ['d']⟩, false, true, 0, 2⟩]

/-! ## Theorems -/

/-! ### C5: the retry loop of `Song.fetch` -/

theorem fetchGo_all_fail (oracle : Nat → Bool) :
    ∀ (r a : Nat), (∀ j, j < r → oracle (a + j) = false) →
      fetchGo oracle a r = (false, a + r) := by
  intro r
  induction r with
  | zero => intro a _; simp [fetchGo]
  | succ r ih =>
    intro a h
    have h0 : oracle a = false := by simpa using h 0 (Nat.succ_pos r)
    have : fetchGo oracle (a + 1) r = (false, a + 1 + r) :=
      ih (a + 1) (fun j hj => by
        have := h (j + 1) (by omega)
        simpa [Nat.add_assoc, Nat.add_comm 1 j] using this)
    simp only [fetchGo, h0, if_false, Bool.false_eq_true]
    rw [this]
    congr 1
    omega

theorem fetchGo_first_ok (oracle : Nat → Bool) :
    ∀ (k r a : Nat), k < r → (∀ j, j < k → oracle (a + j) = false) →
      oracle (a + k) = true → fetchGo oracle a r = (true, a + k + 1) := by
  intro k
  induction k with
  | zero =>
    intro r a hr _ hk
    match r, hr with
    | r + 1, _ =>
      simp only [fetchGo]
      rw [if_pos (by simpa using hk)]
  | succ k ih =>
    intro r a hr h hk
    match r, hr with
    | r + 1, hr =>
      have h0 : oracle a = false := by simpa using h 0 (Nat.succ_pos k)
      simp only [fetchGo, h0, Bool.false_eq_true, if_false]
      have := ih r (a + 1) (by omega)
        (fun j hj => by
          have := h (j + 1) (by omega)
          simpa [Nat.add_assoc, Nat.add_comm 1 j] using this)
        (by
          have : a + 1 + k = a + (k + 1) := by omega
          rw [this]; exact hk)
      rw [this]
      congr 1
      omega

/-- C5: if the downloader fails on attempts `1..k` and succeeds on attempt
`k+1` with `k < R`, `fetch` returns success after exactly `k+1` attempts;
if all `R` attempts fail, `fetch` makes exactly `R` attempts and returns
the failure value `false` (it never raises: `fetchRun` is a total
function). -/
theorem c5_fetch_retry_behavior :
    (∀ (oracle : Nat → Bool) (R k : Nat), k < R →
      (∀ j, j < k → oracle j = false) → oracle k = true →
      fetchRun oracle R = (true, k + 1)) ∧
    (∀ (oracle : Nat → Bool) (R : Nat), (∀ j, j < R → oracle j = false) →
      fetchRun oracle R = (false, R)) := by
  constructor
  · intro oracle R k hk h hsucc
    have := fetchGo_first_ok oracle k R 0 hk (by simpa using h) (by simpa using hsucc)
    simpa [fetchRun] using this
  · intro oracle R h
    have := fetchGo_all_fail oracle R 0 (by simpa using h)
    simpa [fetchRun] using this

theorem c5_witness :
    fetchRun (fun j => j == 1) RETRY_ATTEMPTS = (true, 2) ∧
    fetchRun (fun _ => false) RETRY_ATTEMPTS = (false, RETRY_ATTEMPTS) :=
  ⟨c5_fetch_retry_behavior.1 (fun j => j == 1) 3 1 (by decide) (by decide) (by decide),
   c5_fetch_retry_behavior.2 (fun _ => false) 3 (by decide)⟩

/-! ### C9: `size_mb` divides by 1204·1204, not 1024·1024 -/

/-- C9: the code computes `st_size / (1204 * 1204)` — a typo for
`1024 * 1024`.  A file of exactly 1204·1204 = 1449616 bytes is reported as
1 "MB" although its size in megabytes is 1449616/1048576 ≠ 1, and a file of
35 real megabytes (36700160 bytes) is reported below the 30 MB oversized
threshold although 36700160/(1024·1024) = 35 exceeds it. -/
theorem c9_size_mb_wrong_divisor :
    size_mb (some (1204 * 1204)) = 1 ∧
    (1204 * 1204 : ℚ) / (1024 * 1024) ≠ 1 ∧
    size_mb (some (35 * 1024 * 1024)) < BIG_FILE_MB ∧
    BIG_FILE_MB < (35 * 1024 * 1024 : ℚ) / (1024 * 1024) := by
  refine ⟨?_, ?_, ?_, ?_⟩ <;> norm_num [size_mb, BIG_FILE_MB]

/-! ### C10: stats.load_songs references attributes mpme does not define -/

/-- C10: `stats.load_songs` reads `mpme.VOLUMES_DIR` and calls
`mpme.Song.from_file`, but src/mpme.py defines neither top-level name
`VOLUMES_DIR` (only `MAC_VOLUMES_DIR`) nor a `Song` attribute `from_file`
(only `from_string`), so every call of `load_songs` raises
`AttributeError` before any `Song` is produced. -/
theorem c10_missing_attributes :
    "VOLUMES_DIR" ∉ mpmeTopLevelNames ∧
    "from_file" ∉ songAttrNames ∧
    "MAC_VOLUMES_DIR" ∈ mpmeTopLevelNames ∧
    "from_string" ∈ songAttrNames := by
  refine ⟨by decide, by decide, by decide, by decide⟩

/-! ### Counterexamples for C1, C2, C3, C4, C7, C8 -/

/-- C1 counterexample: `full_name` of the song with name `"a"` and artist
`"b"` is `"A ~ B"`, which does contain the serialization delimiter — the
separator itself is that character, for every song. -/
theorem c1_counterexample :
    SONG_DELIM_CHAR ∈ full_name ⟨none, ['a'], ['b']⟩ := by decide

/-- C2 counterexample: with the first song fetching successfully but its
tagging raising (file size 31 MB, above the threshold) and a second song
whose fetch fails, `fetch_all` aborts inside the first iteration: the first
song is never appended to the oversized bucket although its size exceeds
the threshold, and the second song ends in neither bucket. -/
theorem c2_counterexample :
    fetch_all TAGGING_ENABLED
      [⟨⟨none, ['a'], ['b']⟩, true, false, 31, 1⟩,
       ⟨⟨none, ['c'], ['d']⟩, false, true, 0, 1⟩] 0 [] =
    .error { failed := [], big := [], tagged := [⟨none, ['a'], ['b']⟩],
             totalSeconds := 0, avgSeconds := 0, etaSeconds := 0,
             processed := 0, etaTrace := [0] } := by rfl

/-- C3 counterexample: a `fetch_all` invocation over an empty song slice,
entered with a song left in the oversized bucket by a previous run, ends
with that song still in the oversized bucket: only the failed bucket is
reset (src/mpme.py line 241), the oversized bucket is not. -/
theorem c3_counterexample :
    fetch_all TAGGING_ENABLED [] 0 [⟨none, ['a'], ['b']⟩] =
      .ok { failed := [], big := [⟨none, ['a'], ['b']⟩], tagged := [],
            totalSeconds := 0, avgSeconds := 0, etaSeconds := 0,
            processed := 0, etaTrace := [] } ∧
    ([⟨none, ['a'], ['b']⟩] : List Song) ≠ [] := by
  refine ⟨by rfl, by decide⟩

/-- C4 counterexample: a tagging failure after a successful fetch is not
caught anywhere (src/mpme.py line 259), so `fetch_all` aborts: with two
songs whose fetches would both succeed, a tagging error on the first stops
processing before the second song is even displayed (`processed = 0`,
exactly one ETA line was printed). -/
theorem c4_counterexample :
    fetch_all TAGGING_ENABLED
      [⟨⟨none, ['e'], ['f']⟩, true, false, 0, 1⟩,
       ⟨⟨none, ['g'], ['h']⟩, true, true, 0, 1⟩] 0 [] =
    .error { failed := [], big := [], tagged := [⟨none, ['e'], ['f']⟩],
             totalSeconds := 0, avgSeconds := 0, etaSeconds := 0,
             processed := 0, etaTrace := [0] } := by rfl

/-- C7 counterexample: two songs, both fetched, tagged and timed at 0.004
seconds each.  After the first item completes, the rounded moving average
is `round(0.004, 2) = 0`, so `eta_seconds = 0` and the second item's
progress line prints `"N/A"` even though an item has already completed —
refuting "N/A exactly when no item has yet completed". -/
theorem c7_counterexample :
    fetch_all TAGGING_ENABLED
      [⟨⟨none, ['a'], ['b']⟩, true, true, 0, 1/250⟩,
       ⟨⟨none, ['c'], ['d']⟩, true, true, 0, 1/250⟩] 0 [] =
    .ok { failed := [], big := [],
          tagged := [⟨none, ['a'], ['b']⟩, ⟨none, ['c'], ['d']⟩],
          totalSeconds := 1/125, avgSeconds := 0, etaSeconds := 0,
          processed := 2, etaTrace := [0, 0] } ∧
    etaDisplayNA 0 = true := by
  constructor
  · norm_num [fetch_all, runItems, fetchStep, accumulate, pyRound2,
      pyRoundHalfEven, TAGGING_ENABLED, BIG_FILE_MB]
  · decide

/-- C8 counterexample: parsing `"a~b"` yields the song with name `"a"` and
artist `"b"`; serializing it to its canonical string (`str(song)`, i.e.
`full_name`) and parsing again yields name `"A "` and artist `" B"` — not
the same name and not the same artist. -/
theorem c8_counterexample :
    from_string (String.toList "a~b") = some ⟨none, ['a'], ['b']⟩ ∧
    from_string (strSong ⟨none, ['a'], ['b']⟩) =
      some ⟨none, ['A', ' '], [' ', 'B']⟩ ∧
    (['A', ' '] : List Char) ≠ ['a'] ∧ ([' ', 'B'] : List Char) ≠ ['b'] := by
  refine ⟨by decide, by decide, by decide, by decide⟩


/-! ### The state of `fetch_all` after a completed (non-aborting) run -/

theorem avgAt_nil : avgAt [] = 0 := by
  norm_num [avgAt, pyRound2, pyRoundHalfEven]

theorem avgAt_append (done : List SongEnv) (e : SongEnv) :
    avgAt (done ++ [e]) =
      pyRound2 ((((done.map (·.duration)).sum) + e.duration) /
        ((done.length : ℚ) + 1)) := by
  simp [avgAt]

theorem etaTrace_mk (N start : Nat) (done : List SongEnv) (e : SongEnv) :
    (List.range (done ++ [e]).length).map
      (fun k => avgAt ((done ++ [e]).take k) * ((N : ℚ) - ((start : ℚ) + (k : ℚ)))) =
    ((List.range done.length).map
      (fun k => avgAt (done.take k) * ((N : ℚ) - ((start : ℚ) + (k : ℚ))))) ++
    [avgAt done * ((N : ℚ) - ((start : ℚ) + (done.length : ℚ)))] := by
  have h1 : (done ++ [e]).length = done.length + 1 := by simp
  rw [h1, List.range_succ, List.map_append]
  congr 1
  · refine List.map_congr_left ?_
    intro k hk
    rw [List.take_append_of_le_length (le_of_lt (List.mem_range.mp hk))]
  · simp [List.take_left]

/-- One loop iteration turns the state of a completed run over `done` into
the state of a completed run over `done ++ [e]`, provided the iteration does
not abort (the song's tagging succeeds whenever it would be invoked). -/
theorem fetchStep_mkState (tg : Bool) (N start : Nat) (bigPrev : List Song)
    (done : List SongEnv) (e : SongEnv)
    (he : e.fetchOk = true → tg = true → e.tagOk = true) :
    fetchStep tg N start e (mkState tg N start bigPrev done) =
      .ok (mkState tg N start bigPrev (done ++ [e])) := by
  by_cases hf : (e.fetchOk && tg) = true
  · rw [Bool.and_eq_true] at hf
    obtain ⟨hf1, hf2⟩ := hf
    have hf : (e.fetchOk && tg) = true := by rw [Bool.and_eq_true]; exact ⟨hf1, hf2⟩
    have htag := he hf1 hf2
    simp only [fetchStep, hf, htag, if_true]
    congr 1
    unfold accumulate
    by_cases hb : BIG_FILE_MB < e.sizeMb
    · simp only [mkState, if_pos hb, etaTrace_mk, avgAt_append]
      simp [List.filter_append, List.filter_cons, hf, hf1, hf2, htag, hb, List.sum_append]
    · simp only [mkState, if_neg hb, etaTrace_mk, avgAt_append]
      simp [List.filter_append, List.filter_cons, hf, hf1, hf2, htag, hb, List.sum_append]
  · have hf2 : (e.fetchOk && tg) = false := by
      revert hf; cases (e.fetchOk && tg) <;> simp
    have hor : e.fetchOk = false ∨ tg = false := by
      revert hf2; cases e.fetchOk <;> cases tg <;> simp
    simp only [fetchStep]
    rw [if_neg hf]
    congr 1
    unfold accumulate
    by_cases hb : BIG_FILE_MB < e.sizeMb
    · simp only [mkState, if_pos hb, etaTrace_mk, avgAt_append]
      simp [List.filter_append, List.filter_cons, hf2, hb, hor, List.sum_append]
    · simp only [mkState, if_neg hb, etaTrace_mk, avgAt_append]
      simp [List.filter_append, List.filter_cons, hf2, hb, hor, List.sum_append]

theorem runItems_mkState (tg : Bool) (N start : Nat) (bigPrev : List Song) :
    ∀ (items done : List SongEnv),
      (∀ e ∈ items, e.fetchOk = true → tg = true → e.tagOk = true) →
      runItems tg N start (mkState tg N start bigPrev done) items =
        .ok (mkState tg N start bigPrev (done ++ items)) := by
  intro items
  induction items with
  | nil => intro done _; simp [runItems]
  | cons e rest ih =>
    intro done h
    have hstep := fetchStep_mkState tg N start bigPrev done e
      (h e (List.mem_cons_self e rest))
    simp only [runItems, hstep]
    have := ih (done ++ [e]) (fun x hx => h x (List.mem_cons_of_mem e hx))
    rw [this]
    simp

/-- Master characterization: a `fetch_all` run in which no invoked tagging
fails returns normally, and its final state is `mkState` of the processed
slice. -/
theorem fetch_all_mkState (tg : Bool) (songs : List SongEnv) (start : Nat)
    (bigPrev : List Song)
    (h : ∀ e ∈ songs.drop start, e.fetchOk = true → tg = true → e.tagOk = true) :
    fetch_all tg songs start bigPrev =
      .ok (mkState tg songs.length start bigPrev (songs.drop start)) := by
  have h0 : ({ failed := []
               big := bigPrev
               tagged := []
               totalSeconds := 0
               avgSeconds := 0
               etaSeconds := 0
               processed := 0
               etaTrace := [] } : RunState) =
      mkState tg songs.length start bigPrev [] := by
    simp [mkState, avgAt_nil]
  rw [fetch_all, h0]
  have := runItems_mkState tg songs.length start bigPrev (songs.drop start) [] h
  simpa using this

theorem length_filter_add {α : Type} (p : α → Bool) (l : List α) :
    (l.filter p).length + (l.filter (fun a => !p a)).length = l.length := by
  induction l with
  | nil => simp
  | cons a l ih =>
    by_cases h : p a = true <;>
      simp only [List.filter_cons, h, Bool.not_true, Bool.not_false, if_true,
        if_false, List.length_cons, Bool.true_eq_false, Bool.false_eq_true] <;>
      omega

/-! ### C2, C3, C4, C6, C7: amended statements about `fetch_all` -/

/-- C2 (amended): provided every successfully fetched song also tags
successfully (a tagging failure aborts the run mid-item, see the C2/C4
counterexamples), a `fetch_all` run with tagging enabled classifies every
song of the processed slice: the failed bucket holds exactly the songs
whose fetch failed, tagging ran exactly on the songs whose fetch
succeeded, the oversized bucket gains (on top of its prior contents)
exactly the songs whose `size_mb` exceeds the threshold, and each song
ends in exactly one of {tagged/succeeded, failed}. -/
theorem c2_buckets_characterization :
    ∀ (songs : List SongEnv) (start : Nat) (bigPrev : List Song),
      (∀ e ∈ songs.drop start, e.fetchOk = true → e.tagOk = true) →
      ∃ st, fetch_all TAGGING_ENABLED songs start bigPrev = .ok st ∧
        st.failed = ((songs.drop start).filter (fun e => !e.fetchOk)).map (·.song) ∧
        st.tagged = ((songs.drop start).filter (fun e => e.fetchOk)).map (·.song) ∧
        st.big = bigPrev ++ ((songs.drop start).filter
          (fun e => decide (BIG_FILE_MB < e.sizeMb))).map (·.song) ∧
        st.failed.length + st.tagged.length = (songs.drop start).length := by
  intro songs start bigPrev h
  refine ⟨_, fetch_all_mkState TAGGING_ENABLED songs start bigPrev
    (fun e he h1 _ => h e he h1), ?_, ?_, ?_, ?_⟩
  · simp [mkState, TAGGING_ENABLED]
  · simp [mkState, TAGGING_ENABLED]
  · simp [mkState]
  · simp only [mkState, List.length_map, TAGGING_ENABLED, Bool.and_true]
    have := length_filter_add (fun e : SongEnv => e.fetchOk) (songs.drop start)
    omega

theorem c2_witness :
    ∃ st, fetch_all TAGGING_ENABLED demoEnvs 0 [] = .ok st ∧
      st.failed = ((demoEnvs.drop 0).filter (fun e => !e.fetchOk)).map (·.song) ∧
      st.tagged = ((demoEnvs.drop 0).filter (fun e => e.fetchOk)).map (·.song) ∧
      st.big = [] ++ ((demoEnvs.drop 0).filter
        (fun e => decide (BIG_FILE_MB < e.sizeMb))).map (·.song) ∧
      st.failed.length + st.tagged.length = (demoEnvs.drop 0).length :=
  c2_buckets_characterization demoEnvs 0 [] (by decide)

/-- C3 (amended): at the start of each `fetch_all` invocation the failed
bucket is reset — the final failed bucket is exactly this run's failures,
independent of any previous contents — but the oversized bucket is not
reset: the final oversized bucket is its previous contents `bigPrev`
extended with this run's oversized songs. -/
theorem c3_reset_behavior :
    ∀ (tg : Bool) (songs : List SongEnv) (start : Nat) (bigPrev : List Song),
      (∀ e ∈ songs.drop start, e.fetchOk = true → tg = true → e.tagOk = true) →
      ∃ st, fetch_all tg songs start bigPrev = .ok st ∧
        st.failed = ((songs.drop start).filter
          (fun e => !(e.fetchOk && tg))).map (·.song) ∧
        st.big = bigPrev ++ ((songs.drop start).filter
          (fun e => decide (BIG_FILE_MB < e.sizeMb))).map (·.song) := by
  intro tg songs start bigPrev h
  exact ⟨_, fetch_all_mkState tg songs start bigPrev h, rfl, rfl⟩

theorem c3_witness :
    ∃ st, fetch_all TAGGING_ENABLED demoEnvs 0 [⟨none, ['p'], ['q']⟩] = .ok st ∧
      st.failed = ((demoEnvs.drop 0).filter
        (fun e => !(e.fetchOk && TAGGING_ENABLED))).map (·.song) ∧
      st.big = [⟨none, ['p'], ['q']⟩] ++ ((demoEnvs.drop 0).filter
        (fun e => decide (BIG_FILE_MB < e.sizeMb))).map (·.song) :=
  c3_reset_behavior TAGGING_ENABLED demoEnvs 0 [⟨none, ['p'], ['q']⟩] (by decide)

/-- C4 (amended): per-item download errors are isolated — `fetch` never
raises, and as long as no tagging failure occurs, `fetch_all` processes
every song of the slice to the end no matter how many fetches fail; but a
tagging failure after a successful fetch is not caught and aborts the
remaining queue (see the C4 counterexample). -/
theorem c4_fetch_failures_isolated :
    ∀ (songs : List SongEnv) (start : Nat) (bigPrev : List Song),
      (∀ e ∈ songs.drop start, e.fetchOk = true → e.tagOk = true) →
      ∃ st, fetch_all TAGGING_ENABLED songs start bigPrev = .ok st ∧
        st.processed = (songs.drop start).length ∧
        st.etaTrace.length = (songs.drop start).length := by
  intro songs start bigPrev h
  refine ⟨_, fetch_all_mkState TAGGING_ENABLED songs start bigPrev
    (fun e he h1 _ => h e he h1), ?_, ?_⟩
  · simp [mkState]
  · simp [mkState]

theorem c4_witness :
    ∃ st, fetch_all TAGGING_ENABLED demoEnvs 0 [] = .ok st ∧
      st.processed = (demoEnvs.drop 0).length ∧
      st.etaTrace.length = (demoEnvs.drop 0).length :=
  c4_fetch_failures_isolated demoEnvs 0 [] (by decide)

/-- C6: after a completed `fetch_all` run over `n ≥ 1` items with observed
durations `d1..dn` — successes and failures alike, the accumulator update
is unconditional — the cumulative seconds equal `d1+..+dn` and the moving
average equals `round((d1+..+dn)/n, 2)`. -/
theorem c6_moving_average :
    ∀ (songs : List SongEnv) (start : Nat) (bigPrev : List Song),
      (∀ e ∈ songs.drop start, e.fetchOk = true → e.tagOk = true) →
      songs.drop start ≠ [] →
      ∃ st, fetch_all TAGGING_ENABLED songs start bigPrev = .ok st ∧
        st.totalSeconds = ((songs.drop start).map (·.duration)).sum ∧
        st.avgSeconds = pyRound2 ((((songs.drop start).map (·.duration)).sum) /
          (((songs.drop start).length : ℚ))) := by
  intro songs start bigPrev h _
  exact ⟨_, fetch_all_mkState TAGGING_ENABLED songs start bigPrev
    (fun e he h1 _ => h e he h1), rfl, rfl⟩

theorem c6_witness :
    ∃ st, fetch_all TAGGING_ENABLED demoEnvs 0 [] = .ok st ∧
      st.totalSeconds = ((demoEnvs.drop 0).map (·.duration)).sum ∧
      st.avgSeconds = pyRound2 ((((demoEnvs.drop 0).map (·.duration)).sum) /
        (((demoEnvs.drop 0).length : ℚ))) :=
  c6_moving_average demoEnvs 0 [] (by decide) (by decide)

/-- C7 (amended): the progress line of item `k` (0-based within the
processed slice) displays the `eta_seconds` value
`round(avg_k, 2) * (total - (start + k))` computed after the previous item
(`avg_k` the moving average of the first `k` durations); the first item
always displays "N/A", and in general "N/A" is displayed exactly when that
value is zero — which also happens after items have completed whenever the
rounded moving average is zero (see the C7 counterexample), so "N/A" is
not equivalent to "no item has completed yet". -/
theorem c7_eta_values :
    ∀ (songs : List SongEnv) (start k : Nat) (bigPrev : List Song),
      (∀ e ∈ songs.drop start, e.fetchOk = true → e.tagOk = true) →
      k < (songs.drop start).length →
      ∃ st, fetch_all TAGGING_ENABLED songs start bigPrev = .ok st ∧
        st.etaTrace[k]? = some (avgAt ((songs.drop start).take k) *
          ((songs.length : ℚ) - ((start : ℚ) + (k : ℚ)))) ∧
        (k = 0 → st.etaTrace[k]? = some 0) ∧
        (∀ q : ℚ, etaDisplayNA q = true ↔ q = 0) := by
  intro songs start k bigPrev h hk
  refine ⟨_, fetch_all_mkState TAGGING_ENABLED songs start bigPrev
    (fun e he h1 _ => h e he h1), ?_, ?_, ?_⟩
  · simp only [mkState, List.getElem?_map, List.getElem?_range hk, Option.map_some']
  · intro hk0
    subst hk0
    simp only [mkState, List.getElem?_map, List.getElem?_range hk, Option.map_some',
      List.take_zero, avgAt_nil, zero_mul]
  · intro q
    simp [etaDisplayNA]

theorem c7_witness :
    ∃ st, fetch_all TAGGING_ENABLED demoEnvs 0 [] = .ok st ∧
      st.etaTrace[1]? = some (avgAt ((demoEnvs.drop 0).take 1) *
        ((demoEnvs.length : ℚ) - ((0 : ℚ) + (1 : ℚ)))) ∧
      ((1 : Nat) = 0 → st.etaTrace[1]? = some 0) ∧
      (∀ q : ℚ, etaDisplayNA q = true ↔ q = 0) :=
  c7_eta_values demoEnvs 0 1 [] (by decide) (by decide)


/-! ### Character-level lemmas -/

theorem char_toNat_ofNat {n : Nat} (h : n < 55296) : (Char.ofNat n).toNat = n := by
  unfold Char.ofNat
  rw [dif_pos (Or.inl h)]
  rfl

theorem char_eq_of_toNat {a b : Char} (h : a.toNat = b.toNat) : a = b :=
  Char.eq_of_val_eq (UInt32.ext h)

theorem asciiUpper_toNat (c : Char) :
    (asciiUpper c).toNat =
      if 97 ≤ c.toNat ∧ c.toNat ≤ 122 then c.toNat - 32 else c.toNat := by
  unfold asciiUpper
  split
  · next h => exact char_toNat_ofNat (by omega)
  · rfl

theorem asciiLower_toNat (c : Char) :
    (asciiLower c).toNat =
      if 65 ≤ c.toNat ∧ c.toNat ≤ 90 then c.toNat + 32 else c.toNat := by
  unfold asciiLower
  split
  · next h => exact char_toNat_ofNat (by omega)
  · rfl

theorem isAsciiLetter_asciiUpper (c : Char) :
    isAsciiLetter (asciiUpper c) = isAsciiLetter c := by
  simp only [isAsciiLetter, decide_eq_decide, asciiUpper_toNat]
  split <;> omega

theorem isAsciiLetter_asciiLower (c : Char) :
    isAsciiLetter (asciiLower c) = isAsciiLetter c := by
  simp only [isAsciiLetter, decide_eq_decide, asciiLower_toNat]
  split <;> omega

theorem asciiUpper_asciiUpper (c : Char) :
    asciiUpper (asciiUpper c) = asciiUpper c := by
  refine char_eq_of_toNat ?_
  rw [asciiUpper_toNat (asciiUpper c), asciiUpper_toNat c]
  by_cases h : 97 ≤ c.toNat ∧ c.toNat ≤ 122
  · rw [if_pos h, if_neg (by omega)]
  · rw [if_neg h, if_neg h]

theorem asciiLower_asciiLower (c : Char) :
    asciiLower (asciiLower c) = asciiLower c := by
  refine char_eq_of_toNat ?_
  rw [asciiLower_toNat (asciiLower c), asciiLower_toNat c]
  by_cases h : 65 ≤ c.toNat ∧ c.toNat ≤ 90
  · rw [if_pos h, if_neg (by omega)]
  · rw [if_neg h, if_neg h]

theorem asciiUpper_eq_of_nonletter {c d : Char} (hd : isAsciiLetter d = false)
    (h : asciiUpper c = d) : c = d := by
  refine char_eq_of_toNat ?_
  have h2 := congrArg Char.toNat h
  rw [asciiUpper_toNat] at h2
  simp only [isAsciiLetter, decide_eq_false_iff_not] at hd
  split at h2 <;> omega

theorem asciiLower_eq_of_nonletter {c d : Char} (hd : isAsciiLetter d = false)
    (h : asciiLower c = d) : c = d := by
  refine char_eq_of_toNat ?_
  have h2 := congrArg Char.toNat h
  rw [asciiLower_toNat] at h2
  simp only [isAsciiLetter, decide_eq_false_iff_not] at hd
  split at h2 <;> omega

theorem asciiUpper_of_nonletter {c : Char} (hc : isAsciiLetter c = false) :
    asciiUpper c = c := by
  unfold asciiUpper
  split
  · next h =>
    exfalso
    simp only [isAsciiLetter, decide_eq_false_iff_not] at hc
    omega
  · rfl

theorem asciiLower_of_nonletter {c : Char} (hc : isAsciiLetter c = false) :
    asciiLower c = c := by
  unfold asciiLower
  split
  · next h =>
    exfalso
    simp only [isAsciiLetter, decide_eq_false_iff_not] at hc
    omega
  · rfl

theorem isPySpace_asciiUpper (c : Char) :
    isPySpace (asciiUpper c) = isPySpace c := by
  simp only [isPySpace, decide_eq_decide, asciiUpper_toNat]
  split <;> omega

theorem isPySpace_asciiLower (c : Char) :
    isPySpace (asciiLower c) = isPySpace c := by
  simp only [isPySpace, decide_eq_decide, asciiLower_toNat]
  split <;> omega

/-! ### Profile lemmas: title-casing and the possessive fix leave any
character-wise predicate profile unchanged when the predicate is blind to
case changes -/

theorem pyTitleGo_map_profile (P : Char → Bool)
    (hU : ∀ c, P (asciiUpper c) = P c) (hL : ∀ c, P (asciiLower c) = P c) :
    ∀ (b : Bool) (l : List Char), (pyTitleGo b l).map P = l.map P := by
  intro b l
  induction l generalizing b with
  | nil => rfl
  | cons c rest ih =>
    by_cases hc : isAsciiLetter c = true
    · cases b <;> simp [pyTitleGo, hc, hU c, hL c, ih]
    · simp [pyTitleGo, hc, ih]

theorem pyReplace2_map_profile (p1 p2 r1 r2 : Char) (P : Char → Bool)
    (h1 : P r1 = P p1) (h2 : P r2 = P p2) :
    ∀ l : List Char, (pyReplace2 p1 p2 r1 r2 l).map P = l.map P := by
  intro l
  induction l using pyReplace2.induct p1 p2 r1 r2 with
  | case1 => rfl
  | case2 c => rfl
  | case3 c1 c2 rest h ih =>
    obtain ⟨e1, e2⟩ := h
    subst e1
    subst e2
    simp [pyReplace2, h1, h2, ih]
  | case4 c1 c2 rest h ih =>
    simp [pyReplace2, h, ih]


theorem mem_iff_true_mem (c : Char) (l : List Char) :
    c ∈ l ↔ true ∈ l.map (fun x => decide (x = c)) := by
  simp only [List.mem_map]
  constructor
  · intro h; exact ⟨c, h, by simp⟩
  · rintro ⟨a, ha, hd⟩
    have : a = c := by simpa using hd.symm
    exact this ▸ ha

theorem profile_upper_nonletter {d : Char} (hd : isAsciiLetter d = false) (c : Char) :
    (decide (asciiUpper c = d) : Bool) = decide (c = d) :=
  decide_eq_decide.mpr
    ⟨fun h => asciiUpper_eq_of_nonletter hd h,
     fun h => by subst h; exact asciiUpper_of_nonletter hd⟩

theorem profile_lower_nonletter {d : Char} (hd : isAsciiLetter d = false) (c : Char) :
    (decide (asciiLower c = d) : Bool) = decide (c = d) :=
  decide_eq_decide.mpr
    ⟨fun h => asciiLower_eq_of_nonletter hd h,
     fun h => by subst h; exact asciiLower_of_nonletter hd⟩

theorem profile_letter_ne {d x : Char} (hd : isAsciiLetter d = false)
    (hx : isAsciiLetter x = true) : (decide (x = d) : Bool) = false := by
  simp only [decide_eq_false_iff_not]
  intro h
  subst h
  rw [hd] at hx
  exact Bool.false_ne_true hx

theorem mem_pyStrip {c : Char} {l : List Char} (h : c ∈ pyStrip l) : c ∈ l := by
  unfold pyStrip at h
  rw [List.mem_reverse] at h
  have h2 := (List.dropWhile_sublist _).mem h
  rw [List.mem_reverse] at h2
  exact (List.dropWhile_sublist _).mem h2

theorem mem_pyStripComma {c : Char} {l : List Char} (h : c ∈ pyStripComma l) :
    c ∈ l := by
  unfold pyStripComma at h
  rw [List.mem_reverse] at h
  have h2 := (List.dropWhile_sublist _).mem h
  rw [List.mem_reverse] at h2
  exact (List.dropWhile_sublist _).mem h2

theorem possessiveFix_map_profile (P : Char → Bool)
    (hT : P (Char.ofNat 116) = P (Char.ofNat 84))
    (hS : P (Char.ofNat 115) = P (Char.ofNat 83))
    (hM : P (Char.ofNat 109) = P (Char.ofNat 77)) (l : List Char) :
    (possessiveFix l).map P = l.map P := by
  unfold possessiveFix
  rw [pyReplace2_map_profile _ _ _ _ P rfl hT,
    pyReplace2_map_profile _ _ _ _ P rfl hS,
    pyReplace2_map_profile _ _ _ _ P rfl hM]

theorem formatTitle_profile_nonletter {d : Char} (hd : isAsciiLetter d = false)
    (s : List Char) :
    (formatTitle s).map (fun x => decide (x = d)) =
      (pyStrip s).map (fun x => decide (x = d)) := by
  unfold formatTitle
  rw [possessiveFix_map_profile _
    (by rw [profile_letter_ne hd (by decide), profile_letter_ne hd (by decide)])
    (by rw [profile_letter_ne hd (by decide), profile_letter_ne hd (by decide)])
    (by rw [profile_letter_ne hd (by decide), profile_letter_ne hd (by decide)])]
  exact pyTitleGo_map_profile _ (profile_upper_nonletter hd)
    (profile_lower_nonletter hd) false (pyStrip s)

theorem formatTitle_not_mem {d : Char} (hd : isAsciiLetter d = false)
    {s : List Char} (h : d ∉ s) : d ∉ formatTitle s := by
  intro hmem
  have h1 := (mem_iff_true_mem d (formatTitle s)).mp hmem
  rw [formatTitle_profile_nonletter hd] at h1
  exact h (mem_pyStrip ((mem_iff_true_mem d (pyStrip s)).mpr h1))

theorem formatTitle_space_profile (s : List Char) :
    (formatTitle s).map isPySpace = (pyStrip s).map isPySpace := by
  unfold formatTitle
  rw [possessiveFix_map_profile isPySpace (by decide) (by decide) (by decide)]
  exact pyTitleGo_map_profile isPySpace isPySpace_asciiUpper isPySpace_asciiLower
    false (pyStrip s)


/-! ### Heads and last elements of stripped/formatted strings -/

theorem dropWhile_head_false {p : Char → Bool} {l : List Char} {c : Char}
    (h : (l.dropWhile p).head? = some c) : p c = false := by
  induction l with
  | nil => simp [List.dropWhile] at h
  | cons a l ih =>
    rw [List.dropWhile_cons] at h
    split at h
    · exact ih h
    · next hpa =>
      have : a = c := by simpa using h
      subst this
      revert hpa
      cases p a <;> simp

theorem getLast_dropWhile {p : Char → Bool} {l : List Char} {c : Char}
    (h : (l.dropWhile p).getLast? = some c) : l.getLast? = some c := by
  induction l with
  | nil => simp [List.dropWhile] at h
  | cons a l ih =>
    rw [List.dropWhile_cons] at h
    split at h
    · have h2 := ih h
      cases l with
      | nil => simp at h2
      | cons b l => rw [List.getLast?_cons_cons]; exact h2
    · exact h

theorem pyStrip_head_false {l : List Char} {c : Char}
    (h : (pyStrip l).head? = some c) : isPySpace c = false := by
  unfold pyStrip at h
  rw [List.head?_reverse] at h
  have h2 := getLast_dropWhile h
  rw [List.getLast?_reverse] at h2
  exact dropWhile_head_false h2

theorem pyStrip_getLast_false {l : List Char} {c : Char}
    (h : (pyStrip l).getLast? = some c) : isPySpace c = false := by
  unfold pyStrip at h
  rw [List.getLast?_reverse] at h
  exact dropWhile_head_false h

theorem formatTitle_head_false {s : List Char} {c : Char}
    (h : (formatTitle s).head? = some c) : isPySpace c = false := by
  have hp := formatTitle_space_profile s
  have h1 : ((formatTitle s).map isPySpace).head? = some (isPySpace c) := by
    rw [List.head?_map, h]
    rfl
  rw [hp, List.head?_map] at h1
  cases hh : (pyStrip s).head? with
  | none => rw [hh] at h1; simp at h1
  | some d =>
    rw [hh] at h1
    simp only [Option.map_some', Option.some_inj] at h1
    rw [← h1]
    exact pyStrip_head_false hh

theorem formatTitle_getLast_false {s : List Char} {c : Char}
    (h : (formatTitle s).getLast? = some c) : isPySpace c = false := by
  have hp := formatTitle_space_profile s
  have h1 : ((formatTitle s).map isPySpace).getLast? = some (isPySpace c) := by
    rw [List.getLast?_map, h]
    rfl
  rw [hp, List.getLast?_map] at h1
  cases hh : (pyStrip s).getLast? with
  | none => rw [hh] at h1; simp at h1
  | some d =>
    rw [hh] at h1
    simp only [Option.map_some', Option.some_inj] at h1
    rw [← h1]
    exact pyStrip_getLast_false hh

/-! ### Strip no-ops -/

theorem dropWhile_eq_self_of_head {p : Char → Bool} {l : List Char}
    (h : ∀ c, l.head? = some c → p c = false) : l.dropWhile p = l := by
  cases l with
  | nil => rfl
  | cons a l =>
    have := h a rfl
    rw [List.dropWhile_cons]
    simp [this]

theorem pyStrip_eq_self {l : List Char}
    (h1 : ∀ c, l.head? = some c → isPySpace c = false)
    (h2 : ∀ c, l.getLast? = some c → isPySpace c = false) : pyStrip l = l := by
  unfold pyStrip
  rw [dropWhile_eq_self_of_head h1]
  rw [dropWhile_eq_self_of_head
    (fun c hc => h2 c (by rwa [List.head?_reverse] at hc))]
  exact List.reverse_reverse l

theorem pyStripComma_eq_self {l : List Char}
    (h1 : ∀ c, l.head? = some c → c ≠ ',')
    (h2 : ∀ c, l.getLast? = some c → c ≠ ',') : pyStripComma l = l := by
  have ha : l.dropWhile (fun c => decide (c = ',')) = l :=
    dropWhile_eq_self_of_head (fun c hc => by simpa using h1 c hc)
  have hb : l.reverse.dropWhile (fun c => decide (c = ',')) = l.reverse :=
    dropWhile_eq_self_of_head
      (fun c hc => by simpa using h2 c (by rwa [List.head?_reverse] at hc))
  unfold pyStripComma
  rw [ha, hb, List.reverse_reverse]

theorem pyStrip_formatTitle (s : List Char) :
    pyStrip (formatTitle s) = formatTitle s :=
  pyStrip_eq_self (fun _ hc => formatTitle_head_false hc)
    (fun _ hc => formatTitle_getLast_false hc)


/-! ### Idempotence of the formatting pipeline -/

theorem pyTitleGo_idem : ∀ (b : Bool) (l : List Char),
    pyTitleGo b (pyTitleGo b l) = pyTitleGo b l := by
  intro b l
  induction l generalizing b with
  | nil => rfl
  | cons c rest ih =>
    by_cases hc : isAsciiLetter c = true
    · cases b
      · simp [pyTitleGo, hc, isAsciiLetter_asciiUpper, asciiUpper_asciiUpper, ih]
      · simp [pyTitleGo, hc, isAsciiLetter_asciiLower, asciiLower_asciiLower, ih]
    · simp [pyTitleGo, hc, ih]

theorem pyTitleGo_pyReplace2 (p2 r2 : Char) (hl2 : isAsciiLetter p2 = true)
    (hA : isAsciiLetter r2 = isAsciiLetter p2) (hU : asciiUpper r2 = asciiUpper p2)
    (hL : asciiLower r2 = asciiLower p2) :
    ∀ (b : Bool) (l : List Char),
      pyTitleGo b (pyReplace2 apostropheChar p2 apostropheChar r2 l) =
        pyTitleGo b l := by
  intro b l
  induction l using pyReplace2.induct apostropheChar p2 apostropheChar r2
      generalizing b with
  | case1 => rfl
  | case2 c => rfl
  | case3 c1 c2 rest h ih =>
    obtain ⟨e1, e2⟩ := h
    subst e1
    subst e2
    have hap : isAsciiLetter apostropheChar = false := by decide
    simp [pyReplace2, pyTitleGo, hap, hl2, hA, hU, ih]
  | case4 c1 c2 rest h ih =>
    by_cases hc1 : isAsciiLetter c1 = true
    · simp [pyReplace2, h, pyTitleGo, hc1, ih]
    · simp [pyReplace2, h, pyTitleGo, hc1, ih]

theorem pyTitle_possessiveFix (l : List Char) :
    pyTitle (possessiveFix l) = pyTitle l := by
  unfold possessiveFix pyTitle
  rw [pyTitleGo_pyReplace2 (Char.ofNat 84) (Char.ofNat 116) (by decide) (by decide)
    (by decide) (by decide)]
  rw [pyTitleGo_pyReplace2 (Char.ofNat 83) (Char.ofNat 115) (by decide) (by decide)
    (by decide) (by decide)]
  rw [pyTitleGo_pyReplace2 (Char.ofNat 77) (Char.ofNat 109) (by decide) (by decide)
    (by decide) (by decide)]

theorem pyTitle_formatTitle (s : List Char) :
    pyTitle (formatTitle s) = pyTitle (pyStrip s) := by
  show pyTitle (possessiveFix (pyTitle (pyStrip s))) = pyTitle (pyStrip s)
  rw [pyTitle_possessiveFix]
  exact pyTitleGo_idem false (pyStrip s)

theorem formatTitle_of_strip_eq {s t : List Char} (h : pyStrip t = pyStrip s) :
    formatTitle t = formatTitle s := by
  show possessiveFix (pyTitle (pyStrip t)) = possessiveFix (pyTitle (pyStrip s))
  rw [h]

theorem formatTitle_formatTitle (s : List Char) :
    formatTitle (formatTitle s) = formatTitle s := by
  show possessiveFix (pyTitle (pyStrip (formatTitle s))) = formatTitle s
  rw [pyStrip_formatTitle, pyTitle_formatTitle]
  rfl


/-! ### Splitting -/

theorem pySplit_ne_nil (d : Char) (l : List Char) : pySplit d l ≠ [] := by
  induction l with
  | nil => simp [pySplit]
  | cons c rest ih =>
    by_cases hc : c = d
    · simp [pySplit, hc]
    · simp only [pySplit, hc, if_false]
      cases h : pySplit d rest with
      | nil => exact absurd h ih
      | cons g gs => simp

theorem pySplit_no_delim (d : Char) : ∀ (l : List Char), ∀ g ∈ pySplit d l, d ∉ g := by
  intro l
  induction l with
  | nil =>
    intro g hg
    have hg2 : g = [] := by simpa [pySplit] using hg
    subst hg2
    simp
  | cons c rest ih =>
    intro g hg
    by_cases hc : c = d
    · have hsp : pySplit d (c :: rest) = [] :: pySplit d rest := by
        simp [pySplit, hc]
      rw [hsp] at hg
      rcases List.mem_cons.mp hg with hg1 | hg1
      · subst hg1; simp
      · exact ih g hg1
    · simp only [pySplit, hc, if_false] at hg
      cases h : pySplit d rest with
      | nil => exact absurd h (pySplit_ne_nil d rest)
      | cons g0 gs =>
        rw [h] at hg
        rcases List.mem_cons.mp hg with hg | hg
        · subst hg
          intro hmem
          rcases List.mem_cons.mp hmem with he | he
          · exact hc he.symm
          · exact ih g0 (h ▸ List.mem_cons_self g0 gs) he
        · exact ih g (h ▸ List.mem_cons_of_mem g0 hg)

theorem pySplit_single {d : Char} : ∀ {l : List Char}, d ∉ l → pySplit d l = [l] := by
  intro l
  induction l with
  | nil => intro _; rfl
  | cons c rest ih =>
    intro h
    have hc : ¬(c = d) := fun e => h (by rw [e]; exact List.mem_cons_self d rest)
    have hrest : d ∉ rest := fun hm => h (List.mem_cons_of_mem c hm)
    simp only [pySplit, hc, if_false, ih hrest]

theorem pySplit_append {d : Char} : ∀ {P : List Char}, d ∉ P → ∀ (R : List Char),
    pySplit d (P ++ d :: R) = P :: pySplit d R := by
  intro P
  induction P with
  | nil => intro _ R; simp [pySplit]
  | cons c P ih =>
    intro h R
    have hc : ¬(c = d) := fun e => h (by rw [e]; exact List.mem_cons_self d P)
    have hP : d ∉ P := fun hm => h (List.mem_cons_of_mem c hm)
    have hih : pySplit d (P ++ d :: R) = P :: pySplit d R := ih hP R
    simp only [List.cons_append, pySplit, hc, if_false, List.append_eq]
    rw [hih]

/-! ### C1: the delimiter in `full_name` -/

/-- C1 (amended): far from never containing the delimiter, `full_name`
always contains it — it is the separator between the formatted title and
the formatted artist.  When the song's name and artist are themselves
delimiter-free (as is the case for every song produced by `from_string`),
`full_name` contains the delimiter exactly once. -/
theorem c1_delimiter_count (s : Song)
    (hn : SONG_DELIM_CHAR ∉ s.name) (ha : SONG_DELIM_CHAR ∉ s.artist) :
    (full_name s).count SONG_DELIM_CHAR = 1 := by
  have hd : isAsciiLetter SONG_DELIM_CHAR = false := by decide
  have h1 : SONG_DELIM_CHAR ∉ formatTitle s.name := formatTitle_not_mem hd hn
  have h2 : SONG_DELIM_CHAR ∉ formatTitle s.artist := formatTitle_not_mem hd ha
  unfold full_name
  rw [List.count_append, List.count_append]
  rw [List.count_eq_zero.mpr h1, List.count_eq_zero.mpr h2]
  decide

theorem c1_witness : (full_name ⟨none, ['a'], ['b']⟩).count SONG_DELIM_CHAR = 1 :=
  c1_delimiter_count ⟨none, ['a'], ['b']⟩ (by decide) (by decide)


/-! ### Stripping the canonical string -/

theorem dropWhile_cons_of_pos {p : Char → Bool} {a : Char} (h : p a = true)
    (l : List Char) : List.dropWhile p (a :: l) = List.dropWhile p l := by
  rw [List.dropWhile_cons, if_pos h]

theorem dropWhile_cons_of_neg {p : Char → Bool} {a : Char} (h : p a = false)
    (l : List Char) : List.dropWhile p (a :: l) = a :: l := by
  rw [List.dropWhile_cons]
  simp [h]

theorem stripRight_concat {l L : List Char} {b : Char}
    (hb : isPySpace b = false) (h : l = L ++ [b]) :
    (l.reverse.dropWhile isPySpace).reverse = l := by
  subst h
  rw [List.reverse_append]
  simp only [List.reverse_cons, List.reverse_nil, List.nil_append,
    List.singleton_append]
  rw [dropWhile_cons_of_neg hb]
  simp

theorem stripRight_delim_space (X : List Char) :
    ((X ++ [SONG_DELIM_CHAR, ' ']).reverse.dropWhile isPySpace).reverse =
      X ++ [SONG_DELIM_CHAR] := by
  rw [List.reverse_append]
  have h1 : (([SONG_DELIM_CHAR, ' '] : List Char).reverse) = [' ', SONG_DELIM_CHAR] := by
    decide
  rw [h1]
  simp only [List.cons_append, List.nil_append]
  rw [dropWhile_cons_of_pos (by decide), dropWhile_cons_of_neg (by decide)]
  simp

theorem pyStrip_wrap (A B : List Char)
    (hhA : ∀ c, A.head? = some c → isPySpace c = false)
    (hlB : ∀ c, B.getLast? = some c → isPySpace c = false) :
    pyStrip (A ++ [' ', SONG_DELIM_CHAR, ' '] ++ B) =
      (if A = [] then [] else A ++ [' ']) ++
        SONG_DELIM_CHAR :: (if B = [] then [] else ' ' :: B) := by
  unfold pyStrip
  cases A with
  | nil =>
    rw [if_pos rfl]
    have e1 : List.dropWhile isPySpace
        (([] : List Char) ++ [' ', SONG_DELIM_CHAR, ' '] ++ B) =
        SONG_DELIM_CHAR :: ' ' :: B := by
      simp only [List.nil_append, List.cons_append]
      rw [dropWhile_cons_of_pos (by decide), dropWhile_cons_of_neg (by decide)]
    rw [e1]
    rcases List.eq_nil_or_concat B with hB | ⟨L, b, hB⟩
    · subst hB
      rw [if_pos rfl]
      decide
    · rw [List.concat_eq_append] at hB
      have hb : isPySpace b = false :=
        hlB b (by rw [hB]; exact List.getLast?_concat _)
      rw [if_neg (by simp [hB])]
      have h2 : SONG_DELIM_CHAR :: ' ' :: B =
          (SONG_DELIM_CHAR :: ' ' :: L) ++ [b] := by simp [hB]
      rw [stripRight_concat hb h2]
      simp
  | cons a A2 =>
    have ha : isPySpace a = false := hhA a rfl
    rw [if_neg (by simp)]
    have e1 : List.dropWhile isPySpace
        ((a :: A2) ++ [' ', SONG_DELIM_CHAR, ' '] ++ B) =
        (a :: A2) ++ [' ', SONG_DELIM_CHAR, ' '] ++ B := by
      simp only [List.cons_append]
      exact dropWhile_cons_of_neg ha _
    rw [e1]
    rcases List.eq_nil_or_concat B with hB | ⟨L, b, hB⟩
    · subst hB
      rw [if_pos rfl]
      have h2 : (a :: A2) ++ [' ', SONG_DELIM_CHAR, ' '] ++ ([] : List Char) =
          ((a :: A2) ++ [' ']) ++ [SONG_DELIM_CHAR, ' '] := by simp
      rw [h2, stripRight_delim_space]
    · rw [List.concat_eq_append] at hB
      have hb : isPySpace b = false :=
        hlB b (by rw [hB]; exact List.getLast?_concat _)
      rw [if_neg (by simp [hB])]
      have h2 : (a :: A2) ++ [' ', SONG_DELIM_CHAR, ' '] ++ B =
          (((a :: A2) ++ [' ', SONG_DELIM_CHAR, ' ']) ++ L) ++ [b] := by
        simp [hB]
      rw [stripRight_concat hb h2]
      simp [hB]


theorem pyStrip_formatTitle_space (x : List Char) :
    pyStrip (formatTitle x ++ [' ']) = formatTitle x := by
  cases hA : formatTitle x with
  | nil => decide
  | cons a A2 =>
    have ha : isPySpace a = false := formatTitle_head_false (by rw [hA]; rfl)
    have hlast : ∀ c, (a :: A2).getLast? = some c → isPySpace c = false := by
      intro c hc
      exact formatTitle_getLast_false (by rw [hA]; exact hc)
    unfold pyStrip
    have e1 : List.dropWhile isPySpace ((a :: A2) ++ [' ']) = (a :: A2) ++ [' '] := by
      simp only [List.cons_append]
      exact dropWhile_cons_of_neg ha _
    rw [e1, List.reverse_append]
    simp only [List.reverse_cons, List.reverse_nil, List.nil_append,
      List.singleton_append]
    rw [dropWhile_cons_of_pos (by decide)]
    rw [dropWhile_eq_self_of_head
      (fun c hc => hlast c (by rwa [← List.reverse_cons, List.head?_reverse] at hc))]
    simp

theorem pyStrip_space_cons_formatTitle (x : List Char) :
    pyStrip (' ' :: formatTitle x) = formatTitle x := by
  unfold pyStrip
  rw [dropWhile_cons_of_pos (by decide)]
  rw [dropWhile_eq_self_of_head (fun c hc => formatTitle_head_false hc)]
  rcases List.eq_nil_or_concat (formatTitle x) with h | ⟨L, b, h⟩
  · rw [h]; rfl
  · rw [List.concat_eq_append] at h
    have hb : isPySpace b = false :=
      formatTitle_getLast_false (by rw [h]; exact List.getLast?_concat _)
    exact stripRight_concat hb h

theorem formatTitle_append_space (x : List Char) :
    formatTitle (formatTitle x ++ [' ']) = formatTitle x := by
  have h1 : pyStrip (formatTitle x ++ [' ']) = pyStrip (formatTitle x) := by
    rw [pyStrip_formatTitle_space, pyStrip_formatTitle]
  rw [formatTitle_of_strip_eq h1, formatTitle_formatTitle]

theorem formatTitle_space_cons (x : List Char) :
    formatTitle (' ' :: formatTitle x) = formatTitle x := by
  have h1 : pyStrip (' ' :: formatTitle x) = pyStrip (formatTitle x) := by
    rw [pyStrip_space_cons_formatTitle, pyStrip_formatTitle]
  rw [formatTitle_of_strip_eq h1, formatTitle_formatTitle]

/-! ### Parsing facts -/

theorem from_string_fields {s : List Char} {song : Song}
    (h : from_string s = some song) :
    SONG_DELIM_CHAR ∉ song.name ∧ SONG_DELIM_CHAR ∉ song.artist := by
  simp only [from_string] at h
  rcases hsp : pySplit SONG_DELIM_CHAR (pyStrip (pyStripComma s)) with
    _ | ⟨g1, _ | ⟨g2, _ | ⟨g3, _ | ⟨g4, gs⟩⟩⟩⟩ <;> rw [hsp] at h
  · exact absurd h (by simp)
  · exact absurd h (by simp)
  · have hg1 : SONG_DELIM_CHAR ∉ g1 :=
      pySplit_no_delim _ _ g1 (hsp ▸ List.mem_cons_self _ _)
    have hg2 : SONG_DELIM_CHAR ∉ g2 :=
      pySplit_no_delim _ _ g2 (hsp ▸ List.mem_cons_of_mem _ (List.mem_cons_self _ _))
    have hs : song = ⟨none, g1, g2⟩ := by
      have := h
      simp at this
      exact this.symm
    rw [hs]
    exact ⟨hg1, hg2⟩
  · have hg2 : SONG_DELIM_CHAR ∉ g2 :=
      pySplit_no_delim _ _ g2 (hsp ▸ List.mem_cons_of_mem _ (List.mem_cons_self _ _))
    have hg3 : SONG_DELIM_CHAR ∉ g3 :=
      pySplit_no_delim _ _ g3
        (hsp ▸ List.mem_cons_of_mem _ (List.mem_cons_of_mem _ (List.mem_cons_self _ _)))
    have hs : song = ⟨some g1, g2, g3⟩ := by
      have := h
      simp at this
      exact this.symm
    rw [hs]
    exact ⟨hg2, hg3⟩
  · exact absurd h (by simp)


theorem head_wrap {A B : List Char} {c : Char}
    (hc : (A ++ [' ', SONG_DELIM_CHAR, ' '] ++ B).head? = some c) :
    c = ' ' ∨ A.head? = some c := by
  cases A with
  | nil =>
    left
    simp only [List.nil_append, List.cons_append, List.head?_cons,
      Option.some_inj] at hc
    exact hc.symm
  | cons a A2 =>
    right
    simp only [List.cons_append, List.head?_cons, Option.some_inj] at hc
    rw [List.head?_cons, hc]

theorem last_wrap {A B : List Char} {c : Char}
    (hc : (A ++ [' ', SONG_DELIM_CHAR, ' '] ++ B).getLast? = some c) :
    c = ' ' ∨ B.getLast? = some c := by
  rcases List.eq_nil_or_concat B with h | ⟨L, b, h⟩
  · subst h
    left
    have h2 : A ++ [' ', SONG_DELIM_CHAR, ' '] ++ ([] : List Char) =
        (A ++ [' ', SONG_DELIM_CHAR]) ++ [' '] := by simp
    rw [h2, List.getLast?_concat] at hc
    simpa using hc.symm
  · rw [List.concat_eq_append] at h
    subst h
    right
    have h2 : A ++ [' ', SONG_DELIM_CHAR, ' '] ++ (L ++ [b]) =
        (A ++ [' ', SONG_DELIM_CHAR, ' '] ++ L) ++ [b] := by simp
    rw [h2, List.getLast?_concat] at hc
    rw [List.getLast?_concat]
    exact hc

/-- C8 (amended): for every string accepted by `from_string`, provided the
parsed name and artist contain no comma (edge commas are eaten by
`strip(",")` on re-parsing), serializing the parsed song to its canonical
string and parsing again succeeds and yields a song with no id whose
canonical string — hence whose formatted name and artist — is the same;
the raw `name`/`artist` strings themselves are not preserved (they gain
padding spaces and title-casing, see the C8 counterexample), and a
three-part string's id is dropped because `__str__` does not include it. -/
theorem c8_roundtrip_canonical :
    ∀ (s : List Char) (song : Song), from_string s = some song →
      (',' ∉ song.name) → (',' ∉ song.artist) →
      ∃ song2, from_string (strSong song) = some song2 ∧
        song2.yid = none ∧ full_name song2 = full_name song := by
  intro s song hparse hn ha
  obtain ⟨htn, hta⟩ := from_string_fields hparse
  have hd : isAsciiLetter SONG_DELIM_CHAR = false := by decide
  have hcm : isAsciiLetter ',' = false := by decide
  have hdA : SONG_DELIM_CHAR ∉ formatTitle song.name := formatTitle_not_mem hd htn
  have hdB : SONG_DELIM_CHAR ∉ formatTitle song.artist := formatTitle_not_mem hd hta
  have hcA : (',' : Char) ∉ formatTitle song.name := formatTitle_not_mem hcm hn
  have hcB : (',' : Char) ∉ formatTitle song.artist := formatTitle_not_mem hcm ha
  have hsc : pyStripComma (formatTitle song.name ++ [' ', SONG_DELIM_CHAR, ' '] ++
      formatTitle song.artist) =
      formatTitle song.name ++ [' ', SONG_DELIM_CHAR, ' '] ++
        formatTitle song.artist := by
    apply pyStripComma_eq_self
    · intro c hc
      rcases head_wrap hc with h | h
      · subst h; decide
      · intro he
        subst he
        exact hcA (List.mem_of_mem_head? h)
    · intro c hc
      rcases last_wrap hc with h | h
      · subst h; decide
      · intro he
        subst he
        exact hcB (List.mem_of_getLast?_eq_some h)
  have hsw := pyStrip_wrap (formatTitle song.name) (formatTitle song.artist)
    (fun c hc => formatTitle_head_false hc)
    (fun c hc => formatTitle_getLast_false hc)
  set P := (if formatTitle song.name = [] then []
    else formatTitle song.name ++ [' ']) with hP
  set Q := (if formatTitle song.artist = [] then []
    else ' ' :: formatTitle song.artist) with hQ
  have hdP : SONG_DELIM_CHAR ∉ P := by
    rw [hP]
    split
    · simp
    · intro hm
      rcases List.mem_append.mp hm with hm | hm
      · exact hdA hm
      · simp at hm
        exact absurd hm (by decide)
  have hdQ : SONG_DELIM_CHAR ∉ Q := by
    rw [hQ]
    split
    · simp
    · intro hm
      rcases List.mem_cons.mp hm with hm | hm
      · exact absurd hm (by decide)
      · exact hdB hm
  have hfs : from_string (strSong song) = some ⟨none, P, Q⟩ := by
    show from_string (full_name song) = _
    have harg : full_name song = formatTitle song.name ++
        [' ', SONG_DELIM_CHAR, ' '] ++ formatTitle song.artist := rfl
    simp only [from_string, harg, hsc, hsw]
    rw [pySplit_append hdP Q, pySplit_single hdQ]
  have hfP : formatTitle P = formatTitle song.name := by
    rw [hP]
    split
    · next h => rw [h]; decide
    · exact formatTitle_append_space song.name
  have hfQ : formatTitle Q = formatTitle song.artist := by
    rw [hQ]
    split
    · next h => rw [h]; decide
    · exact formatTitle_space_cons song.artist
  refine ⟨⟨none, P, Q⟩, hfs, rfl, ?_⟩
  show formatTitle P ++ [' ', SONG_DELIM_CHAR, ' '] ++ formatTitle Q =
    full_name song
  rw [hfP, hfQ]
  rfl

theorem c8_witness :
    ∃ song2, from_string (strSong ⟨none, ['a'], ['b']⟩) = some song2 ∧
      song2.yid = none ∧
      full_name song2 = full_name ⟨none, ['a'], ['b']⟩ :=
  c8_roundtrip_canonical (String.toList "a~b") ⟨none, ['a'], ['b']⟩
    (by decide) (by decide) (by decide)

end MpMe
